import Mathlib

/-!
Shallow embedding of the core audio-reactive control loop of
src/src/heartbeat.py (class AudioReactiveController) and proofs of the
spec's claims about it.

Modelling conventions:
* Python floats are modelled as real numbers (exact arithmetic); NaN does
  not exist in this model, so the defensive isnan checks of the source
  become unreachable branches (the sign check is kept literally).
* PCM chunks (Python bytes decoded with np.frombuffer dtype=int16) are
  modelled as lists of integers; the byte-level chunking of
  process_mp3_file (CHUNK_SIZE * 2 bytes) becomes sample-level chunking
  (CHUNK_SIZE samples).
* The mutable attributes of AudioReactiveController are gathered in the
  Controller structure; the pair of ad-hoc attributes audio_min_energy and
  audio_max_energy, which are only present after calibration and are
  always set together, is modelled as the single optional field
  audio_range (hasattr checks become matches on the option).
* time.time() is passed in explicitly as the current_time argument.
-/

namespace Heartbeat

/-- heartbeat.py line 78: CHUNK_SIZE = 1024. -/
def CHUNK_SIZE : ℕ := 1024

/-- heartbeat.py line 79: SMOOTHING_FACTOR = 0.7. -/
def SMOOTHING_FACTOR : ℝ := 0.7

/-- heartbeat.py line 82: BEAT_THRESHOLD = 1.15. -/
def BEAT_THRESHOLD : ℝ := 1.15

/-- heartbeat.py line 83: BEAT_DECAY = 0.88. -/
def BEAT_DECAY : ℝ := 0.88

/-- heartbeat.py line 84: MIN_BEAT_INTERVAL = 0.25. -/
def MIN_BEAT_INTERVAL : ℝ := 0.25

/-- heartbeat.py line 258: HEARTBEAT_MIN = 40 (local to update_leds). -/
def HEARTBEAT_MIN : ℝ := 40

/-- heartbeat.py line 259: HEARTBEAT_MAX = 97 (local to update_leds). -/
def HEARTBEAT_MAX : ℝ := 97

/-- The mutable state of AudioReactiveController that the core loop touches
(heartbeat.py lines 150-156 plus the calibration attributes set at lines
340-341). -/
structure Controller where
  brightness_1 : ℝ
  brightness_2 : ℝ
  last_beat_time : ℝ
  energy_history : List ℝ
  smoothed_energy : ℝ
  audio_range : Option (ℝ × ℝ)

/-- The state as left by AudioReactiveController.__init__ (lines 150-156):
no calibration attributes yet. -/
def init_controller : Controller :=
  { brightness_1 := 0.0
    brightness_2 := 0.0
    last_beat_time := 0
    energy_history := []
    smoothed_energy := 0.0
    audio_range := none }

/-- analyze_audio_chunk (lines 188-215): returns the energy value and the
new smoothed_energy state.  The source returns 0.0 on an empty chunk
(line 196) before touching self.smoothed_energy; the isnan half of the
line 202 guard is vacuous over the reals and is dropped, the sign half is
kept. -/
noncomputable def analyze_audio_chunk (smoothed_energy : ℝ) (audio_array : List ℤ) :
    ℝ × ℝ :=
  if audio_array.length = 0 then
    (0, smoothed_energy)
  else
    let mean_square := ((audio_array.map (fun s : ℤ => ((s : ℝ)) ^ 2)).sum) / audio_array.length
    if mean_square < 0 then
      (smoothed_energy, smoothed_energy)
    else
      let rms := Real.sqrt mean_square
      let normalized_energy := max 0 (min (rms / 10000) 1)
      let smoothed := SMOOTHING_FACTOR * smoothed_energy +
        (1 - SMOOTHING_FACTOR) * normalized_energy
      (smoothed, smoothed)

/-- Iterate analyze_audio_chunk over a list of chunks, returning the final
smoothed_energy state and the list of returned energy values (the per-chunk
analysis half of the steady-state loop, lines 369-379). -/
noncomputable def analyze_chunks (smoothed_energy : ℝ) :
    List (List ℤ) → ℝ × List ℝ
  | [] => (smoothed_energy, [])
  | chunk :: rest =>
      let r := analyze_audio_chunk smoothed_energy chunk
      let rec' := analyze_chunks r.2 rest
      (rec'.1, r.1 :: rec'.2)

/-- np.median: sort ascending and average the two middle elements (they
coincide for odd length).  Used by detect_beat at line 231. -/
noncomputable def npMedian (l : List ℝ) : ℝ :=
  let s := List.insertionSort (fun a b : ℝ => a ≤ b) l
  (s.getD ((l.length - 1) / 2) 0 + s.getD (l.length / 2) 0) / 2

/-- The energy-history update of detect_beat (lines 225-227): append the new
sample, drop the oldest when the length exceeds 50. -/
def updated_history (c : Controller) (energy : ℝ) : List ℝ :=
  let h := c.energy_history ++ [energy]
  if 50 < h.length then h.drop 1 else h

/-- detect_beat (lines 217-251): returns the updated controller and the
is_beat flag.  The hasattr check at line 239 becomes a match on
audio_range. -/
noncomputable def detect_beat (c : Controller) (energy current_time : ℝ) :
    Controller × Bool :=
  let hist := updated_history c energy
  let is_beat : Bool :=
    if 10 < hist.length then
      let median_energy := npMedian hist
      let threshold_met : Bool := decide (energy > median_energy * BEAT_THRESHOLD)
      let threshold_met : Bool :=
        match c.audio_range with
        | some r => threshold_met && decide (energy > r.2 * 0.5)
        | none => threshold_met
      threshold_met && decide (current_time - c.last_beat_time > MIN_BEAT_INTERVAL)
    else false
  ({ c with
      energy_history := hist
      last_beat_time := if is_beat then current_time else c.last_beat_time },
   is_beat)

/-- Iterate detect_beat over a list of (energy, current_time) pairs,
returning the final controller and the times of the calls that signalled a
beat, in call order. -/
noncomputable def run_detector (c : Controller) :
    List (ℝ × ℝ) → Controller × List ℝ
  | [] => (c, [])
  | (energy, t) :: rest =>
      let r := detect_beat c energy t
      let rec' := run_detector r.1 rest
      (rec'.1, if r.2 then t :: rec'.2 else rec'.2)

/-- The mapped-baseline computation of update_leds (lines 262-275): rescale
energy from the calibrated range onto [HEARTBEAT_MIN, HEARTBEAT_MAX], with
the degenerate-range and uncalibrated fallbacks. -/
noncomputable def mapped_brightness (audio_range : Option (ℝ × ℝ)) (energy : ℝ) : ℝ :=
  match audio_range with
  | some r =>
      let range := r.2 - r.1
      let normalized := if range > 0 then max 0 (min 1 ((energy - r.1) / range)) else 0.5
      HEARTBEAT_MIN + normalized * (HEARTBEAT_MAX - HEARTBEAT_MIN)
  | none => HEARTBEAT_MIN + energy * (HEARTBEAT_MAX - HEARTBEAT_MIN)

/-- update_leds (lines 253-296), without the PWM write: flash to
HEARTBEAT_MAX on a beat, otherwise decay and floor at the mapped baseline,
then clamp both channels to [HEARTBEAT_MIN, HEARTBEAT_MAX]. -/
noncomputable def update_leds (c : Controller) (energy : ℝ) (is_beat : Bool) :
    Controller :=
  let mapped := mapped_brightness c.audio_range energy
  let b1 := if is_beat then HEARTBEAT_MAX else max (c.brightness_1 * BEAT_DECAY) mapped
  let b2 := if is_beat then HEARTBEAT_MAX else max (c.brightness_2 * BEAT_DECAY) mapped
  { c with
      brightness_1 := max HEARTBEAT_MIN (min HEARTBEAT_MAX b1)
      brightness_2 := max HEARTBEAT_MIN (min HEARTBEAT_MAX b2) }

/-- The per-chunk energy collection of the calibration loop in
process_mp3_file (lines 324-337): walk the samples CHUNK_SIZE at a time,
stop at the first incomplete chunk, and append the normalized RMS of each
complete chunk (the length and sign guards of lines 331-334 are kept; the
isnan half is vacuous over the reals). -/
noncomputable def chunk_energies (samples : List ℤ) : List ℝ :=
  if samples.length < CHUNK_SIZE then []
  else
    let chunk := samples.take CHUNK_SIZE
    let rest := chunk_energies (samples.drop CHUNK_SIZE)
    if chunk.length = 0 then rest
    else
      let mean_square := ((chunk.map (fun s : ℤ => ((s : ℝ)) ^ 2)).sum) / chunk.length
      if 0 ≤ mean_square then
        min (Real.sqrt mean_square / 10000.0) 1.0 :: rest
      else rest
termination_by samples.length
decreasing_by
  simp only [List.length_drop]
  simp only [CHUNK_SIZE] at *
  omega

/-- np.percentile with the default linear interpolation: with s the sorted
data and h = (n-1)*q/100, return s[floor h] + frac(h)*(s[floor h + 1] -
s[floor h]).  The fractional index h is exact rational arithmetic.  Used by
process_mp3_file at lines 340-341. -/
noncomputable def npPercentile (q : ℚ) (l : List ℝ) : ℝ :=
  let s := List.insertionSort (fun a b : ℝ => a ≤ b) l
  let h : ℚ := ((l.length : ℚ) - 1) * q / 100
  let i : ℕ := (Int.floor h).toNat
  let lo := s.getD i 0
  let hi := s.getD (i + 1) lo
  lo + ((h : ℝ) - (i : ℝ)) * (hi - lo)

/-- The calibration part of process_mp3_file (lines 319-341): collect the
complete-chunk energies and store their 5th and 95th percentiles as
audio_min_energy / audio_max_energy.  np.percentile raises on an empty
sequence, modelled as none. -/
noncomputable def process_calibration (c : Controller) (samples : List ℤ) :
    Option Controller :=
  let energies := chunk_energies samples
  if energies.isEmpty then none
  else some { c with audio_range := some (npPercentile 5 energies, npPercentile 95 energies) }

/-! ### Lemmas about the Energy Analyzer -/

lemma analyze_audio_chunk_nil (s : ℝ) : analyze_audio_chunk s [] = (0, s) := rfl

/-- analyze_audio_chunk returns one of three things: 0 on an empty chunk,
the old state on a negative mean square, or the smoothing update applied to
a normalized energy in [0,1]; the state component always mirrors the
non-empty-path return value. -/
lemma analyze_audio_chunk_cases (s : ℝ) (chunk : List ℤ) :
    analyze_audio_chunk s chunk = (0, s) ∨
    analyze_audio_chunk s chunk = (s, s) ∨
    ∃ n : ℝ, 0 ≤ n ∧ n ≤ 1 ∧
      analyze_audio_chunk s chunk =
        (SMOOTHING_FACTOR * s + (1 - SMOOTHING_FACTOR) * n,
         SMOOTHING_FACTOR * s + (1 - SMOOTHING_FACTOR) * n) := by
  unfold analyze_audio_chunk
  split
  · exact Or.inl rfl
  · dsimp only
    split
    · exact Or.inr (Or.inl rfl)
    · exact Or.inr (Or.inr
        ⟨_, le_max_left _ _, max_le (by norm_num) (min_le_right _ _), rfl⟩)

/-- Single-call bounds: from a smoothed state in [0,1], both the returned
value and the new state stay in [0,1]. -/
lemma analyze_audio_chunk_bounds (s : ℝ) (hs0 : 0 ≤ s) (hs1 : s ≤ 1)
    (chunk : List ℤ) :
    0 ≤ (analyze_audio_chunk s chunk).1 ∧ (analyze_audio_chunk s chunk).1 ≤ 1 ∧
    0 ≤ (analyze_audio_chunk s chunk).2 ∧ (analyze_audio_chunk s chunk).2 ≤ 1 := by
  rcases analyze_audio_chunk_cases s chunk with h | h | ⟨n, hn0, hn1, h⟩ <;> rw [h]
  · exact ⟨le_refl 0, by norm_num, hs0, hs1⟩
  · exact ⟨hs0, hs1, hs0, hs1⟩
  · simp only [SMOOTHING_FACTOR]
    refine ⟨?_, ?_, ?_, ?_⟩ <;> nlinarith

lemma analyze_chunks_bounds (s : ℝ) (hs0 : 0 ≤ s) (hs1 : s ≤ 1)
    (chunks : List (List ℤ)) :
    (0 ≤ (analyze_chunks s chunks).1 ∧ (analyze_chunks s chunks).1 ≤ 1) ∧
    ∀ v ∈ (analyze_chunks s chunks).2, 0 ≤ v ∧ v ≤ 1 := by
  induction chunks generalizing s with
  | nil => simpa [analyze_chunks] using ⟨hs0, hs1⟩
  | cons chunk rest ih =>
      obtain ⟨h1, h2, h3, h4⟩ := analyze_audio_chunk_bounds s hs0 hs1 chunk
      obtain ⟨hfin, hall⟩ := ih _ h3 h4
      refine ⟨by simpa [analyze_chunks] using hfin, ?_⟩
      intro v hv
      simp only [analyze_chunks, List.mem_cons] at hv
      rcases hv with rfl | hv
      · exact ⟨h1, h2⟩
      · exact hall v hv

/-! ### Claim theorems about the Energy Analyzer -/

/-- Claim C3 counterexample: with previous smoothed energy 0.5, an empty
chunk makes analyze_audio_chunk return 0.0, not the previous smoothed value
0.5 as the claim states. -/
theorem analyze_empty_not_previous :
    (analyze_audio_chunk 0.5 []).1 ≠ 0.5 := by
  rw [analyze_audio_chunk_nil]
  norm_num

/-- Claim C3 (amended): on an empty PCM chunk, analyze_audio_chunk returns
0.0 (not the previous smoothed value), and leaves the stored smoothed
energy unchanged. -/
theorem analyze_empty_returns_zero (s : ℝ) :
    analyze_audio_chunk s [] = (0, s) :=
  analyze_audio_chunk_nil s

/-- Claim C10: an empty chunk leaves the smoothed-energy state unchanged —
the function returns before the smoothing update, so a subsequent chunk is
analyzed against the same previous value as if the empty chunk had never
arrived. -/
theorem analyze_empty_frame (s : ℝ) (chunk : List ℤ) :
    (analyze_audio_chunk s []).2 = s ∧
    analyze_audio_chunk ((analyze_audio_chunk s []).2) chunk =
      analyze_audio_chunk s chunk := by
  rw [analyze_audio_chunk_nil]
  exact ⟨rfl, rfl⟩

/-- Claim C7: starting from smoothed energy 0, for every sequence of PCM
chunks (empty and all-zero included) every value returned by
analyze_audio_chunk lies in [0,1] and the stored smoothed energy stays in
[0,1]. -/
theorem analyzer_unit_interval (chunks : List (List ℤ)) :
    (0 ≤ (analyze_chunks 0 chunks).1 ∧ (analyze_chunks 0 chunks).1 ≤ 1) ∧
    ∀ v ∈ (analyze_chunks 0 chunks).2, 0 ≤ v ∧ v ≤ 1 :=
  analyze_chunks_bounds 0 (le_refl 0) (by norm_num) chunks

/-! ### Lemmas about the Brightness Mapper -/

/-- The mapped baseline never goes below HEARTBEAT_MIN when the raw energy
is nonnegative (in the calibrated cases it never does at all). -/
lemma mapped_brightness_ge (r : Option (ℝ × ℝ)) (energy : ℝ) (he : 0 ≤ energy) :
    40 ≤ mapped_brightness r energy := by
  unfold mapped_brightness
  match r with
  | none =>
      simp only [HEARTBEAT_MIN, HEARTBEAT_MAX]
      nlinarith
  | some p =>
      dsimp only
      split
      · have h0 : (0:ℝ) ≤ max 0 (min 1 ((energy - p.1) / (p.2 - p.1))) := le_max_left _ _
        simp only [HEARTBEAT_MIN, HEARTBEAT_MAX]
        nlinarith
      · simp only [HEARTBEAT_MIN, HEARTBEAT_MAX]
        norm_num

/-- The decay-then-floor-then-clamp arithmetic of a single non-beat channel
update, when the previous brightness sits strictly above a baseline that is
itself inside the allowed range. -/
lemma decay_step (b m : ℝ) (hm40 : 40 ≤ m) (hmb : m < b) (hb : b ≤ 97) :
    max HEARTBEAT_MIN (min HEARTBEAT_MAX (max (b * BEAT_DECAY) m)) < b ∧
    m ≤ max HEARTBEAT_MIN (min HEARTBEAT_MAX (max (b * BEAT_DECAY) m)) := by
  simp only [HEARTBEAT_MIN, HEARTBEAT_MAX, BEAT_DECAY]
  have h1 : max (b * 0.88) m ≤ 97 := max_le (by nlinarith) (by linarith)
  have h2 : (40:ℝ) ≤ max (b * 0.88) m := le_trans hm40 (le_max_right _ _)
  rw [min_eq_right h1, max_eq_right h2]
  exact ⟨max_lt (by nlinarith) hmb, le_max_right _ _⟩

/-! ### Claim theorems about the Brightness Mapper -/

/-- Claim C2: whatever the energy, beat flag, calibration state (including
a degenerate high = low range or no calibration at all) and previous
brightness pair, after update_leds both channel brightness values lie in
[40, 97]. -/
theorem update_leds_bounds (c : Controller) (energy : ℝ) (is_beat : Bool) :
    (40 ≤ (update_leds c energy is_beat).brightness_1 ∧
     (update_leds c energy is_beat).brightness_1 ≤ 97) ∧
    (40 ≤ (update_leds c energy is_beat).brightness_2 ∧
     (update_leds c energy is_beat).brightness_2 ≤ 97) := by
  unfold update_leds
  dsimp only
  constructor <;>
    exact ⟨le_max_left _ _ |>.trans_eq' (by norm_num [HEARTBEAT_MIN]),
      max_le (by norm_num [HEARTBEAT_MIN]) ((min_le_left _ _).trans_eq (by norm_num [HEARTBEAT_MAX]))⟩

/-- Claim C8: with a degenerate calibration range (high = low), the mapped
baseline is the midpoint 68.5 of the brightness range [40, 97], for every
energy input. -/
theorem degenerate_range_midpoint (l energy : ℝ) :
    mapped_brightness (some (l, l)) energy = 68.5 := by
  unfold mapped_brightness
  norm_num [HEARTBEAT_MIN, HEARTBEAT_MAX]

/-- Claim C6: when a beat fires, update_leds sets both channels to the
ceiling 97; on a non-beat chunk whose previous brightness sits strictly
above the mapped baseline (with nonnegative energy and brightness at most
97), both channels strictly decrease and never drop below the mapped
baseline. -/
theorem beat_flash_decay :
    (∀ (c : Controller) (energy : ℝ),
        (update_leds c energy true).brightness_1 = 97 ∧
        (update_leds c energy true).brightness_2 = 97) ∧
    (∀ (c : Controller) (energy : ℝ), 0 ≤ energy →
        mapped_brightness c.audio_range energy < c.brightness_1 →
        c.brightness_1 ≤ 97 →
        mapped_brightness c.audio_range energy < c.brightness_2 →
        c.brightness_2 ≤ 97 →
        ((update_leds c energy false).brightness_1 < c.brightness_1 ∧
         mapped_brightness c.audio_range energy ≤ (update_leds c energy false).brightness_1 ∧
         (update_leds c energy false).brightness_2 < c.brightness_2 ∧
         mapped_brightness c.audio_range energy ≤ (update_leds c energy false).brightness_2)) := by
  constructor
  · intro c energy
    unfold update_leds
    dsimp only
    constructor <;> norm_num [HEARTBEAT_MIN, HEARTBEAT_MAX]
  · intro c energy he h1 h1' h2 h2'
    have hm40 : 40 ≤ mapped_brightness c.audio_range energy :=
      mapped_brightness_ge c.audio_range energy he
    obtain ⟨d1, d1'⟩ := decay_step c.brightness_1 _ hm40 h1 h1'
    obtain ⟨d2, d2'⟩ := decay_step c.brightness_2 _ hm40 h2 h2'
    unfold update_leds
    dsimp only
    exact ⟨d1, d1', d2, d2'⟩

/-- Witness for the decay half of beat_flash_decay: previous brightness 50
on both channels, no calibration, energy 0 (mapped baseline 40). -/
theorem beat_flash_decay_witness :
    ((0:ℝ) ≤ 0 ∧ mapped_brightness none 0 < 50 ∧ (50:ℝ) ≤ 97) ∧
    ((update_leds (Controller.mk 50 50 0 [] 0 none) 0 false).brightness_1 < 50 ∧
     mapped_brightness none 0 ≤
       (update_leds (Controller.mk 50 50 0 [] 0 none) 0 false).brightness_1 ∧
     (update_leds (Controller.mk 50 50 0 [] 0 none) 0 false).brightness_2 < 50 ∧
     mapped_brightness none 0 ≤
       (update_leds (Controller.mk 50 50 0 [] 0 none) 0 false).brightness_2) := by
  have hm : mapped_brightness none 0 < 50 := by
    norm_num [mapped_brightness, HEARTBEAT_MIN, HEARTBEAT_MAX]
  exact ⟨⟨le_refl 0, hm, by norm_num⟩,
    beat_flash_decay.2 (Controller.mk 50 50 0 [] 0 none) 0 (le_refl 0)
      hm (by norm_num) hm (by norm_num)⟩

/-! ### Lemmas about the Beat Detector -/

/-- last_beat_time is set to the current time exactly when the call fires. -/
lemma detect_beat_last_beat (c : Controller) (energy t : ℝ) :
    (detect_beat c energy t).1.last_beat_time =
      if (detect_beat c energy t).2 then t else c.last_beat_time := rfl

/-- A firing call satisfies the strict refractory comparison against the
incoming last_beat_time. -/
lemma detect_beat_fires (c : Controller) (energy t : ℝ)
    (h : (detect_beat c energy t).2 = true) :
    MIN_BEAT_INTERVAL < t - c.last_beat_time := by
  simp only [detect_beat] at h
  split at h
  · rcases hr : c.audio_range with _ | r <;> rw [hr] at h <;>
      simp only [Bool.and_eq_true, decide_eq_true_eq, gt_iff_lt] at h
    · exact h.2
    · exact h.2
  · exact absurd h (by simp)

/-- Every beat fired by a run of the detector happens strictly more than
MIN_BEAT_INTERVAL after the initial last_beat_time. -/
lemma run_detector_fired_lower (c : Controller) (inputs : List (ℝ × ℝ)) :
    ∀ t ∈ (run_detector c inputs).2, c.last_beat_time + MIN_BEAT_INTERVAL < t := by
  induction inputs generalizing c with
  | nil => simp [run_detector]
  | cons p rest ih =>
      obtain ⟨energy, t0⟩ := p
      intro t ht
      simp only [run_detector] at ht
      have hmin : (0:ℝ) < MIN_BEAT_INTERVAL := by norm_num [MIN_BEAT_INTERVAL]
      by_cases hb : (detect_beat c energy t0).2 = true
      · have hfire := detect_beat_fires c energy t0 hb
        have hlast : (detect_beat c energy t0).1.last_beat_time = t0 := by
          rw [detect_beat_last_beat, hb, if_pos rfl]
        rw [hb, if_pos rfl] at ht
        rcases List.mem_cons.mp ht with rfl | ht'
        · linarith
        · have := ih (detect_beat c energy t0).1 t ht'
          rw [hlast] at this
          linarith
      · have hlast : (detect_beat c energy t0).1.last_beat_time = c.last_beat_time := by
          rw [detect_beat_last_beat, Bool.of_not_eq_true hb, if_neg (by simp)]
        rw [Bool.of_not_eq_true hb, if_neg (by simp)] at ht
        have := ih (detect_beat c energy t0).1 t ht
        rw [hlast] at this
        exact this

/-- The fired-beat times of any run are pairwise separated by strictly more
than MIN_BEAT_INTERVAL. -/
lemma run_detector_pairwise (c : Controller) (inputs : List (ℝ × ℝ)) :
    List.Pairwise (fun t1 t2 => MIN_BEAT_INTERVAL < t2 - t1)
      (run_detector c inputs).2 := by
  induction inputs generalizing c with
  | nil => simp [run_detector]
  | cons p rest ih =>
      obtain ⟨energy, t0⟩ := p
      simp only [run_detector]
      by_cases hb : (detect_beat c energy t0).2 = true
      · rw [hb, if_pos rfl]
        refine List.Pairwise.cons ?_ (ih _)
        intro t ht
        have hlow := run_detector_fired_lower (detect_beat c energy t0).1 rest t ht
        have hlast : (detect_beat c energy t0).1.last_beat_time = t0 := by
          rw [detect_beat_last_beat, hb, if_pos rfl]
        rw [hlast] at hlow
        linarith
      · rw [Bool.of_not_eq_true hb, if_neg (by simp)]
        exact ih _

/-! ### Claim theorems about the Beat Detector -/

/-- Claim C1: over any sequence of detector calls with nondecreasing
current times and arbitrary energies, the times of the calls that signal a
beat are pairwise separated by strictly more than MIN_BEAT_INTERVAL;
moreover a call fires only when the current time strictly exceeds
last_beat_time + MIN_BEAT_INTERVAL, and firing sets last_beat_time to the
current time. -/
theorem detect_beat_refractory (c : Controller) (inputs : List (ℝ × ℝ))
    (_hmono : List.Chain' (fun a b : ℝ × ℝ => a.2 ≤ b.2) inputs) :
    List.Pairwise (fun t1 t2 => MIN_BEAT_INTERVAL < t2 - t1)
      (run_detector c inputs).2 ∧
    (∀ (c' : Controller) (energy t : ℝ), (detect_beat c' energy t).2 = true →
        MIN_BEAT_INTERVAL < t - c'.last_beat_time ∧
        (detect_beat c' energy t).1.last_beat_time = t) :=
  ⟨run_detector_pairwise c inputs, fun c' energy t h =>
    ⟨detect_beat_fires c' energy t h, by rw [detect_beat_last_beat, h, if_pos rfl]⟩⟩

/-- Witness for detect_beat_refractory: the fresh controller driven with two
calls at nondecreasing times 0 and 1. -/
theorem detect_beat_refractory_witness :
    List.Chain' (fun a b : ℝ × ℝ => a.2 ≤ b.2) [((1:ℝ), (0:ℝ)), (1, 1)] ∧
    List.Pairwise (fun t1 t2 => MIN_BEAT_INTERVAL < t2 - t1)
      (run_detector init_controller [((1:ℝ), (0:ℝ)), (1, 1)]).2 := by
  have hc : List.Chain' (fun a b : ℝ × ℝ => a.2 ≤ b.2) [((1:ℝ), (0:ℝ)), (1, 1)] := by
    simp [List.chain'_cons]
  exact ⟨hc, (detect_beat_refractory init_controller _ hc).1⟩

/-- Claim C5: a detector call signals a beat exactly when the post-append
history holds more than 10 samples, the energy strictly exceeds the history
median times BEAT_THRESHOLD, the energy strictly exceeds high * 0.5
whenever a calibration range is available, and the refractory interval has
strictly elapsed. -/
theorem detect_beat_condition (c : Controller) (energy t : ℝ) :
    (detect_beat c energy t).2 = true ↔
      (10 < (updated_history c energy).length ∧
       energy > npMedian (updated_history c energy) * BEAT_THRESHOLD ∧
       (∀ lo hi : ℝ, c.audio_range = some (lo, hi) → energy > hi * 0.5) ∧
       t - c.last_beat_time > MIN_BEAT_INTERVAL) := by
  by_cases hlen : 10 < (updated_history c energy).length
  · rcases hr : c.audio_range with _ | ⟨lo, hi⟩
    · simp only [detect_beat, hr, hlen, ite_true, Bool.and_eq_true, decide_eq_true_eq,
        gt_iff_lt, reduceCtorEq, false_implies, implies_true, true_and]
    · simp only [detect_beat, hr, hlen, ite_true, Bool.and_eq_true, decide_eq_true_eq,
        gt_iff_lt, Option.some.injEq, Prod.mk.injEq, true_and]
      constructor
      · rintro ⟨⟨h1, h2⟩, h3⟩
        refine ⟨h1, ?_, h3⟩
        rintro lo' hi' ⟨rfl, rfl⟩
        exact h2
      · rintro ⟨h1, h2, h3⟩
        exact ⟨⟨h1, h2 lo hi ⟨rfl, rfl⟩⟩, h3⟩
  · simp only [detect_beat, if_neg hlen, Bool.false_eq_true, false_iff, not_and]
    intro h
    exact absurd h hlen

/-! ### Lemmas about the Calibration Pass -/

lemma chunk_energies_nil : chunk_energies [] = [] := by
  rw [chunk_energies]
  simp [CHUNK_SIZE]

/-- A track of exactly one all-zero complete chunk yields the single energy
value 0. -/
lemma chunk_energies_replicate_zero :
    chunk_energies (List.replicate 1024 (0:ℤ)) = [(0:ℝ)] := by
  have htake : (List.replicate 1024 (0:ℤ)).take CHUNK_SIZE = List.replicate 1024 (0:ℤ) := by
    rw [List.take_replicate]
    norm_num [CHUNK_SIZE]
  have hdrop : (List.replicate 1024 (0:ℤ)).drop CHUNK_SIZE = [] := by
    rw [List.drop_replicate]
    norm_num [CHUNK_SIZE]
  have hsum : ((List.replicate 1024 (0:ℤ)).map (fun s : ℤ => ((s : ℝ)) ^ 2)).sum = 0 := by
    rw [List.map_replicate, List.sum_replicate]
    norm_num
  rw [chunk_energies, if_neg (by norm_num [CHUNK_SIZE]), htake, hdrop, chunk_energies_nil]
  dsimp only
  rw [hsum]
  norm_num [List.length_replicate, Real.sqrt_zero]

/-- np.percentile of a one-element sequence is that element, for any q. -/
lemma npPercentile_singleton (q : ℚ) (x : ℝ) : npPercentile q [x] = x := by
  unfold npPercentile
  norm_num [List.insertionSort, List.orderedInsert]

/-- Calibration over the one-complete-chunk all-zero track succeeds and
stores the degenerate range (0, 0). -/
lemma process_calibration_replicate :
    process_calibration init_controller (List.replicate 1024 (0:ℤ)) =
      some { init_controller with audio_range := some (0, 0) } := by
  unfold process_calibration
  rw [chunk_energies_replicate_zero]
  simp [npPercentile_singleton]

/-! ### Claim theorems about the Calibration Pass -/

/-- Claim C4 counterexample: a track with a single complete chunk (fewer
than 10) does not skip the percentile computation — process_mp3_file
computes the percentiles and enters calibrated mode anyway. -/
theorem few_chunks_still_calibrate :
    (chunk_energies (List.replicate 1024 (0:ℤ))).length < 10 ∧
    process_calibration init_controller (List.replicate 1024 (0:ℤ)) =
      some { init_controller with audio_range := some (0, 0) } ∧
    ({ init_controller with audio_range := some ((0:ℝ), (0:ℝ)) } : Controller).audio_range ≠
      none := by
  refine ⟨?_, process_calibration_replicate, by simp⟩
  rw [chunk_energies_replicate_zero]
  norm_num

/-- Claim C4 (amended): whenever the track yields at least one complete
chunk — however few — the Calibration Pass computes the 5th/95th
percentiles and always enters calibrated mode; there is no under-10-chunks
fallback to the uncalibrated state. -/
theorem calibration_never_skipped (c : Controller) (samples : List ℤ)
    (h : chunk_energies samples ≠ []) :
    ∃ c', process_calibration c samples = some c' ∧
      c'.audio_range = some (npPercentile 5 (chunk_energies samples),
                             npPercentile 95 (chunk_energies samples)) := by
  unfold process_calibration
  rw [if_neg (by simpa using h)]
  exact ⟨_, rfl, rfl⟩

/-- Witness for calibration_never_skipped at the one-chunk all-zero track. -/
theorem calibration_never_skipped_witness :
    chunk_energies (List.replicate 1024 (0:ℤ)) ≠ [] ∧
    ∃ c', process_calibration init_controller (List.replicate 1024 (0:ℤ)) = some c' ∧
      c'.audio_range = some
        (npPercentile 5 (chunk_energies (List.replicate 1024 (0:ℤ))),
         npPercentile 95 (chunk_energies (List.replicate 1024 (0:ℤ)))) := by
  have h : chunk_energies (List.replicate 1024 (0:ℤ)) ≠ [] := by
    rw [chunk_energies_replicate_zero]
    simp
  exact ⟨h, calibration_never_skipped init_controller _ h⟩

/-- Claim C9: the Calibration Pass is deterministic and idempotent — if a
run over a decoded buffer succeeds, rerunning it over the same buffer from
the resulting state reproduces exactly the same state, and the stored range
is the 5th and 95th percentile of the per-complete-chunk energies. -/
theorem calibration_idempotent (c c₁ : Controller) (samples : List ℤ)
    (h : process_calibration c samples = some c₁) :
    process_calibration c₁ samples = some c₁ ∧
    c₁.audio_range = some (npPercentile 5 (chunk_energies samples),
                           npPercentile 95 (chunk_energies samples)) := by
  unfold process_calibration at h ⊢
  by_cases he : (chunk_energies samples).isEmpty
  · rw [if_pos he] at h
    exact absurd h (by simp)
  · rw [if_neg he] at h
    obtain rfl := Option.some.inj h
    rw [if_neg he]
    exact ⟨rfl, rfl⟩

/-- Witness for calibration_idempotent at the one-chunk all-zero track. -/
theorem calibration_idempotent_witness :
    process_calibration init_controller (List.replicate 1024 (0:ℤ)) =
      some { init_controller with audio_range := some (0, 0) } ∧
    process_calibration { init_controller with audio_range := some ((0:ℝ), (0:ℝ)) }
        (List.replicate 1024 (0:ℤ)) =
      some { init_controller with audio_range := some (0, 0) } := by
  have h := process_calibration_replicate
  exact ⟨h, (calibration_idempotent init_controller _ _ h).1⟩

end Heartbeat
